import Mathlib

/-!
Verification development for the KUBEFLOW_IA_TEST repository.

Shallow embedding of:
  * `src/backend/core/notebook_parser.py` (tag validation, config extraction)
  * `src/backend/tasks/celery_tasks.py` (the pipeline execution engine `run_pipeline`)
  * `src/model-server/server.py` (in-memory model registry: load / predict)

External effects (HTTP, Redis, MLflow, papermill, the SQL database) are modelled
by an explicit environment record whose fields give the outcome of each call,
and by explicit state threading for the database / Redis / registry state.
-/

namespace Spec2Proof

/-! ### Notebook data model (nbformat dicts, as used by notebook_parser.py) -/

/-- A notebook cell: its `metadata.tags` list and its source text.
Python tolerates `source` being a list of strings or a single string; both
reduce to the joined text, which is what we store. -/
structure Cell where
  tags : List String
  source : String
deriving Repr, DecidableEq

/-- A parsed notebook: the `cells` list. -/
structure Notebook where
  cells : List Cell
deriving Repr, DecidableEq

/-- `REQUIRED_TAGS` from notebook_parser.py. -/
def REQUIRED_TAGS : List String :=
  ["mlops:config", "mlops:preprocessing", "mlops:training", "mlops:export"]

/-- `get_cells_by_tag`: all cells carrying the given tag, in order. -/
def get_cells_by_tag (nb : Notebook) (tag : String) : List Cell :=
  nb.cells.filter (fun c => c.tags.contains tag)

/-- The `missing` list computed by `validate_required_tags`: required tags with
no matching cell, in `REQUIRED_TAGS` order. -/
def missingRequiredTags (nb : Notebook) : List String :=
  REQUIRED_TAGS.filter (fun t => (get_cells_by_tag nb t).isEmpty)

/-- The exact `ValueError` message built by `validate_required_tags`. -/
def validationErrorMsg (missing : List String) : String :=
  "Notebook is missing required MLOps tags: " ++ String.intercalate ", " missing ++
    ". Each cell must have metadata.tags containing the appropriate mlops:* tag. " ++
    "Required tags: " ++ String.intercalate ", " REQUIRED_TAGS

/-- `validate_required_tags`: `.ok` when all four tags are present, otherwise a
`ValueError` (modelled as `.error`) listing every missing tag. -/
def validate_required_tags (nb : Notebook) : Except String Unit :=
  let missing := missingRequiredTags nb
  if missing.isEmpty then Except.ok () else Except.error (validationErrorMsg missing)

/-! ### The literal-assignment scan of `extract_config`

`extract_config` runs `re.search` with the pattern
`KEY\s*=\s*['"]([^'"]+)['"]` over the first config cell's source.  We embed
that specific regex as a character-list scanner: leftmost occurrence, maximal
munch for `\s*` and for the quote-free capture group (both are forced here,
since the character following each starred class can never itself belong to
the class). -/

/-- Python `\s` on ASCII text: space, tab, newline, carriage return,
vertical tab, form feed. -/
def isSpaceCh (c : Char) : Bool :=
  c == ' ' || c == '\t' || c == '\n' || c == '\r' ||
    c == Char.ofNat 11 || c == Char.ofNat 12

/-- The two quote characters accepted by the pattern. -/
def isQuoteCh (c : Char) : Bool :=
  c == Char.ofNat 34 || c == Char.ofNat 39

/-- Consume `key` as an exact prefix of `s`, returning the remainder. -/
def stripKey : List Char → List Char → Option (List Char)
  | [], s => some s
  | _ :: _, [] => none
  | k :: ks, c :: cs => if k = c then stripKey ks cs else none

/-- Attempt the regex match anchored at the start of `s`:
`key`, `\s*`, `=`, `\s*`, a quote, a nonempty quote-free capture, a quote. -/
def tryMatch (key s : List Char) : Option (List Char) :=
  match stripKey key s with
  | none => none
  | some r1 =>
    match r1.dropWhile isSpaceCh with
    | [] => none
    | e :: r3 =>
      if e = Char.ofNat 61 then
        match r3.dropWhile isSpaceCh with
        | [] => none
        | q :: r5 =>
          if isQuoteCh q then
            let cap := r5.takeWhile (fun c => !(isQuoteCh c))
            match r5.dropWhile (fun c => !(isQuoteCh c)) with
            | [] => none
            | _ :: _ => if cap.isEmpty then none else some cap
          else none
      else none

/-- `re.search`: try the anchored match at each position, left to right. -/
def reSearch (key : List Char) : List Char → Option (List Char)
  | [] => tryMatch key []
  | c :: t =>
    match tryMatch key (c :: t) with
    | some v => some v
    | none => reSearch key t

/-- String-level wrapper around `reSearch` (the capture group's value). -/
def findAssign (key src : String) : Option String :=
  (reSearch key.data src.data).map (fun l => String.mk l)

/-- The dict returned by `extract_config`. -/
structure NotebookConfig where
  model_name : String
  version : String
deriving Repr, DecidableEq

/-- `extract_config`: scan the first `mlops:config` cell for the two literal
assignments, with fixed defaults, raising if no config cell exists. -/
def extract_config (nb : Notebook) : Except String NotebookConfig :=
  match get_cells_by_tag nb "mlops:config" with
  | [] => Except.error "No cell with tag \x27mlops:config\x27 found in notebook."
  | c :: _ =>
    Except.ok
      { model_name := (findAssign "MODEL_NAME" c.source).getD "default-model"
        version := (findAssign "VERSION" c.source).getD "1" }

/-! ### Declarative semantics of the regex, for the C4 characterization -/

/-- Declarative reading of one anchored match of the pattern at the head of
`s`, capturing `v`. -/
def MatchesHere (key v s : List Char) : Prop :=
  ∃ sp1 sp2 q qq rest,
    (∀ c ∈ sp1, isSpaceCh c = true) ∧ (∀ c ∈ sp2, isSpaceCh c = true) ∧
    isQuoteCh q = true ∧ isQuoteCh qq = true ∧
    v ≠ [] ∧ (∀ c ∈ v, isQuoteCh c = false) ∧
    s = key ++ sp1 ++ Char.ofNat 61 :: (sp2 ++ q :: (v ++ qq :: rest))

/-- Leftmost-match semantics of `re.search`: a match at position `n` with no
match at any earlier position. -/
def FirstMatch (key v s : List Char) : Prop :=
  ∃ n, MatchesHere key v (s.drop n) ∧ ∀ m < n, ∀ w, ¬ MatchesHere key w (s.drop m)

/-- No position of `s` yields a match. -/
def NoMatch (key s : List Char) : Prop :=
  ∀ n w, ¬ MatchesHere key w (s.drop n)

/-! #### Helper lemmas about the scanner -/

lemma stripKey_eq_some {key s r : List Char} (h : stripKey key s = some r) :
    s = key ++ r := by
  induction key generalizing s with
  | nil => simp [stripKey] at h; simp [h]
  | cons k ks ih =>
    cases s with
    | nil => simp [stripKey] at h
    | cons c cs =>
      simp only [stripKey] at h
      by_cases hk : k = c
      · simp [hk] at h
        simpa [hk] using congrArg (c :: ·) (ih h)
      · simp [hk] at h

lemma stripKey_append (key r : List Char) : stripKey key (key ++ r) = some r := by
  induction key with
  | nil => rfl
  | cons k ks ih => simp [stripKey, ih]

lemma dropWhile_all_append {p : Char → Bool} {l : List Char} (hl : ∀ c ∈ l, p c = true)
    {c : Char} (hc : p c = false) (r : List Char) :
    (l ++ c :: r).dropWhile p = c :: r := by
  induction l with
  | nil => simp [List.dropWhile, hc]
  | cons a t ih =>
    have ha : p a = true := hl a (by simp)
    simp only [List.cons_append, List.dropWhile, ha]
    exact ih (fun x hx => hl x (by simp [hx]))

lemma takeWhile_all_append {p : Char → Bool} {l : List Char} (hl : ∀ c ∈ l, p c = true)
    {c : Char} (hc : p c = false) (r : List Char) :
    (l ++ c :: r).takeWhile p = l := by
  induction l with
  | nil => simp [List.takeWhile, hc]
  | cons a t ih =>
    have ha : p a = true := hl a (by simp)
    simp only [List.cons_append, List.takeWhile, ha]
    exact congrArg (a :: ·) (ih (fun x hx => hl x (by simp [hx])))

lemma mem_takeWhile_sat {p : Char → Bool} {l : List Char} {c : Char}
    (h : c ∈ l.takeWhile p) : p c = true := by
  induction l with
  | nil => simp [List.takeWhile] at h
  | cons a t ih =>
    by_cases ha : p a = true
    · simp [List.takeWhile, ha] at h
      rcases h with h | h
      · simpa [h] using ha
      · exact ih h
    · simp [List.takeWhile, Bool.of_not_eq_true ha] at h

lemma dropWhile_head_false {p : Char → Bool} {l t : List Char} {a : Char}
    (h : l.dropWhile p = a :: t) : p a = false := by
  induction l with
  | nil => simp [List.dropWhile] at h
  | cons b s ih =>
    by_cases hb : p b = true
    · simp [List.dropWhile, hb] at h
      exact ih h
    · have hb' : p b = false := Bool.of_not_eq_true hb
      simp [List.dropWhile, hb'] at h
      simp [← h.1, hb']

lemma quote_not_space {c : Char} (h : isQuoteCh c = true) : isSpaceCh c = false := by
  simp only [isQuoteCh, Bool.or_eq_true, beq_iff_eq] at h
  rcases h with h | h <;> simp [h, isSpaceCh]

lemma eq_char_not_space : isSpaceCh (Char.ofNat 61) = false := by decide

/-- Soundness and completeness of the anchored matcher against the
declarative reading. -/
lemma tryMatch_eq_some_iff {key s v : List Char} :
    tryMatch key s = some v ↔ MatchesHere key v s := by
  constructor
  · intro h
    simp only [tryMatch] at h
    split at h
    · exact absurd h (by simp)
    rename_i r1 hstrip
    split at h
    · exact absurd h (by simp)
    rename_i e r3 hdw
    split at h
    case isFalse => exact absurd h (by simp)
    rename_i he
    split at h
    · exact absurd h (by simp)
    rename_i q r5 hdw2
    split at h
    case isFalse => exact absurd h (by simp)
    rename_i hq
    split at h
    · exact absurd h (by simp)
    rename_i qq rest hdw3
    split at h
    case isTrue => exact absurd h (by simp)
    rename_i hcap
    have hv : r5.takeWhile (fun c => !(isQuoteCh c)) = v := by simpa using h
    refine ⟨r1.takeWhile isSpaceCh, r3.takeWhile isSpaceCh, q, qq, rest,
      fun c hc => mem_takeWhile_sat hc, fun c hc => mem_takeWhile_sat hc, hq, ?_, ?_, ?_, ?_⟩
    · have := dropWhile_head_false hdw3
      simpa using this
    · intro hnil
      rw [hv] at hcap
      exact hcap (by simp [hnil, List.isEmpty])
    · intro c hc
      rw [← hv] at hc
      have := mem_takeWhile_sat hc
      simpa using this
    · have hs : s = key ++ r1 := stripKey_eq_some hstrip
      have h1 : r1 = r1.takeWhile isSpaceCh ++ (e :: r3) := by
        rw [← hdw]; exact (List.takeWhile_append_dropWhile isSpaceCh r1).symm
      have h3 : r3 = r3.takeWhile isSpaceCh ++ (q :: r5) := by
        rw [← hdw2]; exact (List.takeWhile_append_dropWhile isSpaceCh r3).symm
      have h5 : r5 = v ++ (qq :: rest) := by
        rw [← hv, ← hdw3]
        exact (List.takeWhile_append_dropWhile (fun c => !(isQuoteCh c)) r5).symm
      conv_lhs => rw [hs, h1, h3, h5]
      simp [he]
  · rintro ⟨sp1, sp2, q, qq, rest, hsp1, hsp2, hq, hqq, hvne, hvqf, hs⟩
    have hqs : isSpaceCh q = false := quote_not_space hq
    have hnq : (fun c => !(isQuoteCh c)) qq = false := by simp [hqq]
    have hvp : ∀ c ∈ v, (fun c => !(isQuoteCh c)) c = true := by
      intro c hc; simp [hvqf c hc]
    have hve : v.isEmpty = false := by
      cases v with
      | nil => exact absurd rfl hvne
      | cons a t => rfl
    simp only [tryMatch, hs, List.append_assoc, stripKey_append,
      dropWhile_all_append hsp1 eq_char_not_space,
      dropWhile_all_append hsp2 hqs,
      takeWhile_all_append hvp hnq, dropWhile_all_append hvp hnq,
      hq, hve, if_pos rfl]
    simp [hve]

/-- `reSearch` returns exactly the leftmost match, and `none` iff no position
matches. -/
lemma reSearch_eq_some_iff {key : List Char} :
    ∀ {s v : List Char}, reSearch key s = some v ↔ FirstMatch key v s := by
  intro s
  induction s with
  | nil =>
    intro v
    constructor
    · intro h
      simp only [reSearch] at h
      rw [tryMatch_eq_some_iff] at h
      exact ⟨0, by simpa using h, by omega⟩
    · rintro ⟨n, hn, _⟩
      have : MatchesHere key v [] := by simpa using hn
      simp only [reSearch]
      rw [tryMatch_eq_some_iff]
      exact this
  | cons c t ih =>
    intro v
    constructor
    · intro h
      simp only [reSearch] at h
      rcases htm : tryMatch key (c :: t) with _ | w
      · rw [htm] at h
        rcases (ih).mp h with ⟨n, hn, hmin⟩
        refine ⟨n + 1, by simpa using hn, ?_⟩
        intro m hm w' hw'
        cases m with
        | zero =>
          exact absurd ((tryMatch_eq_some_iff).mpr (by simpa using hw')) (by simp [htm])
        | succ m' =>
          exact hmin m' (by omega) w' (by simpa using hw')
      · rw [htm] at h
        have hw : w = v := by simpa using h
        subst hw
        exact ⟨0, by simpa using (tryMatch_eq_some_iff).mp htm, by omega⟩
    · rintro ⟨n, hn, hmin⟩
      simp only [reSearch]
      cases n with
      | zero =>
        rw [(tryMatch_eq_some_iff).mpr (by simpa using hn)]
      | succ n' =>
        rcases htm : tryMatch key (c :: t) with _ | w
        · exact (ih).mpr ⟨n', by simpa using hn,
            fun m hm w' hw' => hmin (m + 1) (by omega) w' (by simpa using hw')⟩
        · exact absurd ((tryMatch_eq_some_iff).mp htm)
            (hmin 0 (by omega) w)

lemma reSearch_eq_none_iff {key : List Char} :
    ∀ {s : List Char}, reSearch key s = none ↔ NoMatch key s := by
  intro s
  induction s with
  | nil =>
    constructor
    · intro h n w hw
      have : MatchesHere key w [] := by simpa using hw
      rw [← tryMatch_eq_some_iff] at this
      simp only [reSearch] at h
      simp [h] at this
    · intro h
      simp only [reSearch]
      rcases htm : tryMatch key [] with _ | w
      · rfl
      · exact absurd ((tryMatch_eq_some_iff).mp htm) (by simpa using h 0 w)
  | cons c t ih =>
    constructor
    · intro h n w hw
      simp only [reSearch] at h
      rcases htm : tryMatch key (c :: t) with _ | w'
      · rw [htm] at h
        cases n with
        | zero =>
          exact absurd ((tryMatch_eq_some_iff).mpr (by simpa using hw)) (by simp [htm])
        | succ n' =>
          exact (ih.mp h) n' w (by simpa using hw)
      · rw [htm] at h; exact absurd h (by simp)
    · intro h
      simp only [reSearch]
      rcases htm : tryMatch key (c :: t) with _ | w'
      · exact ih.mpr (fun n w hw => h (n + 1) w (by simpa using hw))
      · exact absurd ((tryMatch_eq_some_iff).mp htm) (by simpa using h 0 w')

/-! ### Claims C3 and C4 -/

/-- C3: for every notebook missing N ≥ 1 of the four required tags,
`validate_required_tags` fails with a message listing exactly those N missing
tags (the `missing` list contains precisely the required tags with no tagged
cell, and the message embeds that whole list); for every notebook with at
least one cell per required tag it returns without error. -/
theorem validate_required_tags_spec (nb : Notebook) :
    (validate_required_tags nb = Except.ok () ↔
      ∀ t ∈ REQUIRED_TAGS, ∃ c ∈ nb.cells, t ∈ c.tags) ∧
    (missingRequiredTags nb ≠ [] →
      validate_required_tags nb = Except.error (validationErrorMsg (missingRequiredTags nb))) ∧
    (∀ t, t ∈ missingRequiredTags nb ↔ (t ∈ REQUIRED_TAGS ∧ ∀ c ∈ nb.cells, t ∉ c.tags)) := by
  refine ⟨?_, ?_, ?_⟩
  · rw [validate_required_tags]
    constructor
    · intro h t ht
      by_cases hmiss : (missingRequiredTags nb).isEmpty = true
      · have : t ∉ missingRequiredTags nb := by
          rw [List.isEmpty_iff] at hmiss
          simp [hmiss]
        simp only [missingRequiredTags, List.mem_filter, ht, true_and] at this
        have : ¬ (get_cells_by_tag nb t).isEmpty = true := fun hc => this (by simpa using hc)
        rw [List.isEmpty_iff] at this
        rcases List.exists_mem_of_ne_nil _ this with ⟨c, hc⟩
        simp only [get_cells_by_tag, List.mem_filter] at hc
        exact ⟨c, hc.1, by simpa using hc.2⟩
      · rw [if_neg hmiss] at h
        exact absurd h (by simp)
    · intro h
      have hmiss : missingRequiredTags nb = [] := by
        rw [missingRequiredTags, List.filter_eq_nil_iff]
        intro t ht hempty
        rcases h t ht with ⟨c, hc, htag⟩
        have hnil : nb.cells.filter (fun c => c.tags.contains t) = [] := by
          simpa [List.isEmpty_iff, get_cells_by_tag] using hempty
        have hcon := List.filter_eq_nil_iff.mp hnil c hc
        exact hcon (by simpa using htag)
      rw [hmiss]
      simp
  · intro h
    have : (missingRequiredTags nb).isEmpty = false := by
      cases hm : missingRequiredTags nb with
      | nil => exact absurd hm h
      | cons a t => rfl
    rw [validate_required_tags]
    simp [this]
  · intro t
    simp only [missingRequiredTags, List.mem_filter, List.isEmpty_iff, get_cells_by_tag,
      List.filter_eq_nil_iff, decide_eq_true_eq]
    constructor
    · rintro ⟨ht, hall⟩
      exact ⟨ht, fun c hc htag => hall c hc (by simpa using htag)⟩
    · rintro ⟨ht, hall⟩
      exact ⟨ht, fun c hc htag => hall c hc (by simpa using htag)⟩

/-- A concrete notebook missing `mlops:preprocessing` and `mlops:export`. -/
def nbMissingTwo : Notebook :=
  ⟨[⟨["mlops:config"], "MODEL_NAME = \x22m\x22"⟩, ⟨["mlops:training"], "train()"⟩]⟩

/-- Witness for C3: a notebook missing two tags fails listing both. -/
theorem validate_required_tags_spec_witness :
    missingRequiredTags nbMissingTwo = ["mlops:preprocessing", "mlops:export"] ∧
    validate_required_tags nbMissingTwo =
      Except.error (validationErrorMsg (missingRequiredTags nbMissingTwo)) :=
  ⟨by decide, (validate_required_tags_spec nbMissingTwo).2.1 (by decide)⟩

/-- C4: for every notebook with at least one `mlops:config` cell,
`extract_config` succeeds; each returned field is the capture of the leftmost
regex match of the corresponding literal assignment (either quote style,
earlier matches win) in the first config cell's source, or the fixed default
(`default-model` / `1`) when no position of the source matches. -/
theorem extract_config_spec (nb : Notebook) (c : Cell) (cs : List Cell)
    (h : get_cells_by_tag nb "mlops:config" = c :: cs) :
    ∃ mn vr, extract_config nb = Except.ok ⟨mn, vr⟩ ∧
      (FirstMatch ("MODEL_NAME".data) mn.data c.source.data ∨
        (NoMatch ("MODEL_NAME".data) c.source.data ∧ mn = "default-model")) ∧
      (FirstMatch ("VERSION".data) vr.data c.source.data ∨
        (NoMatch ("VERSION".data) c.source.data ∧ vr = "1")) := by
  refine ⟨_, _, by rw [extract_config, h], ?_, ?_⟩
  · rcases hm : reSearch ("MODEL_NAME".data) c.source.data with _ | l
    · exact Or.inr ⟨reSearch_eq_none_iff.mp hm, by simp [findAssign, hm]⟩
    · refine Or.inl ?_
      have : (findAssign "MODEL_NAME" c.source).getD "default-model" = String.mk l := by
        simp [findAssign, hm]
      rw [this]
      exact reSearch_eq_some_iff.mp hm
  · rcases hm : reSearch ("VERSION".data) c.source.data with _ | l
    · exact Or.inr ⟨reSearch_eq_none_iff.mp hm, by simp [findAssign, hm]⟩
    · refine Or.inl ?_
      have : (findAssign "VERSION" c.source).getD "1" = String.mk l := by
        simp [findAssign, hm]
      rw [this]
      exact reSearch_eq_some_iff.mp hm

/-- A config cell declaring only VERSION, in single quotes. -/
def cfgCellOnlyVersion : Cell := ⟨["mlops:config"], "VERSION = \x272\x27"⟩

/-- A notebook whose first (and only) config cell is `cfgCellOnlyVersion`. -/
def nbOnlyVersion : Notebook := ⟨[cfgCellOnlyVersion]⟩

/-- Witness for C4: applied to a concrete notebook whose config cell omits
MODEL_NAME and declares VERSION in single quotes. -/
theorem extract_config_spec_witness :
    ∃ mn vr, extract_config nbOnlyVersion = Except.ok ⟨mn, vr⟩ ∧
      (FirstMatch ("MODEL_NAME".data) mn.data cfgCellOnlyVersion.source.data ∨
        (NoMatch ("MODEL_NAME".data) cfgCellOnlyVersion.source.data ∧ mn = "default-model")) ∧
      (FirstMatch ("VERSION".data) vr.data cfgCellOnlyVersion.source.data ∨
        (NoMatch ("VERSION".data) cfgCellOnlyVersion.source.data ∧ vr = "1")) :=
  extract_config_spec nbOnlyVersion cfgCellOnlyVersion [] rfl

example : extract_config nbOnlyVersion = Except.ok ⟨"default-model", "2"⟩ := by rfl

example :
    extract_config ⟨[⟨["mlops:config"], "MODEL_NAME = \x22a\x22\nMODEL_NAME = \x22b\x22"⟩]⟩ =
      Except.ok ⟨"a", "1"⟩ := by rfl

example :
    extract_config ⟨[⟨["mlops:config"], "x = 1\nMODEL_NAME=\x27iris\x27\nVERSION = \x223\x22"⟩]⟩ =
      Except.ok ⟨"iris", "3"⟩ := by rfl

/-! ### Model server embedding (src/model-server/server.py)

The in-memory registry `_models : dict[str, _ModelEntry]` is modelled as an
association list with unique keys; a loaded predictor is an abstract function
that may raise. -/

/-- `_ModelEntry`: a loaded model and its metadata. -/
structure ModelEntry where
  model : List (List ℚ) → Except String (List ℚ)
  model_name : String
  version : String
  mlflow_run_id : String
  loaded_at : Nat
  request_count : Nat

/-- Dict lookup on the registry. -/
def regLookup : List (String × ModelEntry) → String → Option ModelEntry
  | [], _ => none
  | (k, e) :: t, n => if k = n then some e else regLookup t n

/-- Dict assignment on the registry: replace in place, else append. -/
def regSet : List (String × ModelEntry) → String → ModelEntry → List (String × ModelEntry)
  | [], n, e => [(n, e)]
  | (k, e0) :: t, n, e => if k = n then (n, e) :: t else (k, e0) :: regSet t n e

/-- An `HTTPException`: status code and detail message. -/
structure HttpError where
  code : Nat
  detail : String
deriving Repr, DecidableEq

/-- The body of a successful `/predict` response. -/
structure PredictOut where
  prediction : List ℚ
  model_name : String
  version : String
deriving Repr, DecidableEq

/-- `predict`: 404 when the name is not loaded; otherwise run the predictor,
incrementing the entry's request count on success (500 on predictor error). -/
def predict (models : List (String × ModelEntry)) (model_name : String)
    (data : List (List ℚ)) : Except HttpError PredictOut × List (String × ModelEntry) :=
  match regLookup models model_name with
  | none =>
    (Except.error ⟨404, "Model \x27" ++ model_name ++ "\x27 is not loaded."⟩, models)
  | some entry =>
    match entry.model data with
    | Except.error e => (Except.error ⟨500, "Prediction failed: " ++ e⟩, models)
    | Except.ok pred =>
      (Except.ok ⟨pred, model_name, entry.version⟩,
        regSet models model_name { entry with request_count := entry.request_count + 1 })

/-- Environment of one `load_model` call: outcomes of the MLflow artifact
download, the filesystem inspection, and joblib deserialization. -/
structure LoadEnv where
  downloadArtifacts : Except String String
  isDir : Bool
  joblibFiles : List String
  dirFiles : List String
  loadFile : String → Except String (List (List ℚ) → Except String (List ℚ))
  now : Nat

/-- `load_model`: download the artifact, locate a model file, deserialize it;
on any failure return HTTP 500 leaving the registry untouched; on success
install the fully-built entry with a single dict assignment. -/
def load_model (env : LoadEnv) (models : List (String × ModelEntry))
    (model_name mlflow_run_id version : String) :
    Except HttpError String × List (String × ModelEntry) :=
  let loaded : Except String (List (List ℚ) → Except String (List ℚ)) :=
    match env.downloadArtifacts with
    | Except.error e => Except.error e
    | Except.ok local_path =>
      if env.isDir then
        match env.joblibFiles with
        | f :: _ => env.loadFile f
        | [] =>
          match env.dirFiles with
          | f :: _ => env.loadFile f
          | [] => Except.error ("No model files in " ++ local_path)
      else env.loadFile local_path
  match loaded with
  | Except.error e => (Except.error ⟨500, "Failed to load model: " ++ e⟩, models)
  | Except.ok m =>
    (Except.ok ("Model \x27" ++ model_name ++ "\x27 v" ++ version ++ " loaded successfully."),
      regSet models model_name
        { model := m, model_name := model_name, version := version,
          mlflow_run_id := mlflow_run_id, loaded_at := env.now, request_count := 0 })

/-! #### Registry lemmas -/

lemma regLookup_regSet_same (models : List (String × ModelEntry)) (n : String)
    (e : ModelEntry) : regLookup (regSet models n e) n = some e := by
  induction models with
  | nil => simp [regSet, regLookup]
  | cons p t ih =>
    rcases p with ⟨k, e0⟩
    by_cases hk : k = n
    · simp [regSet, hk, regLookup]
    · simp [regSet, hk, regLookup, ih]

lemma regLookup_regSet_other (models : List (String × ModelEntry)) (n m : String)
    (e : ModelEntry) (h : m ≠ n) : regLookup (regSet models n e) m = regLookup models m := by
  induction models with
  | nil => simp [regSet, regLookup, Ne.symm h]
  | cons p t ih =>
    rcases p with ⟨k, e0⟩
    by_cases hk : k = n
    · subst hk
      simp [regSet, regLookup, Ne.symm h]
    · simp [regSet, hk, regLookup, ih]

lemma regLookup_mem {models : List (String × ModelEntry)} {n : String} {e : ModelEntry}
    (h : regLookup models n = some e) : (n, e) ∈ models := by
  induction models with
  | nil => simp [regLookup] at h
  | cons p t ih =>
    rcases p with ⟨k, e0⟩
    by_cases hk : k = n
    · subst hk
      simp [regLookup] at h
      simp [h]
    · simp [regLookup, hk] at h
      exact List.mem_cons_of_mem _ (ih h)

/-! ### Claims C9 and C10 -/

/-- C9: `predict` on an unloaded name fails with 404 and returns the registry
object unchanged (every entry and request count intact); on a loaded model
whose predictor succeeds it increments exactly that entry's request count by
one and returns the predictions with the entry's stored name and version
(the dict key equals the entry's stored `model_name` for every entry written
by `load_model`). -/
theorem predict_spec (models : List (String × ModelEntry)) (name : String)
    (data : List (List ℚ)) :
    (regLookup models name = none →
      predict models name data =
        (Except.error ⟨404, "Model \x27" ++ name ++ "\x27 is not loaded."⟩, models)) ∧
    (∀ entry pred, regLookup models name = some entry →
      entry.model data = Except.ok pred →
      ((∀ p ∈ models, (p.2).model_name = p.1) →
        (predict models name data).1 = Except.ok ⟨pred, entry.model_name, entry.version⟩) ∧
      regLookup (predict models name data).2 name =
        some { entry with request_count := entry.request_count + 1 } ∧
      ∀ other, other ≠ name →
        regLookup (predict models name data).2 other = regLookup models other) := by
  constructor
  · intro h
    simp [predict, h]
  · intro entry pred hlook hok
    refine ⟨?_, ?_, ?_⟩
    · intro hinv
      have hname : entry.model_name = name := hinv (name, entry) (regLookup_mem hlook)
      simp [predict, hlook, hok, hname]
    · simp [predict, hlook, hok, regLookup_regSet_same]
    · intro other hother
      simp [predict, hlook, hok, regLookup_regSet_other _ _ _ _ hother]

/-- A concrete one-entry registry for the C9 witness. -/
def demoEntry : ModelEntry :=
  ⟨fun _ => Except.ok [1], "iris", "1", "run-1", 0, 5⟩

/-- Witness for C9: a 404 on a missing name leaves a concrete registry
unchanged, and a successful predict bumps the count from 5 to 6. -/
theorem predict_spec_witness :
    (predict [("iris", demoEntry)] "absent" [[1]] =
      (Except.error ⟨404, "Model \x27absent\x27 is not loaded."⟩, [("iris", demoEntry)])) ∧
    regLookup (predict [("iris", demoEntry)] "iris" [[1]]).2 "iris" =
      some { demoEntry with request_count := 6 } := by
  constructor
  · exact (predict_spec [("iris", demoEntry)] "absent" [[1]]).1 rfl
  · exact ((predict_spec [("iris", demoEntry)] "iris" [[1]]).2 demoEntry [1] rfl rfl).2.1

/-- C10: if `load_model` fails at any point (artifact download, locating the
model file, or deserialization) it returns HTTP 500 and the registry is the
unchanged input object; on success the registry differs only by a single
dict assignment installing the fully-built entry for that name. -/
theorem load_model_spec (env : LoadEnv) (models : List (String × ModelEntry))
    (name rid ver : String) :
    (∀ err reg, load_model env models name rid ver = (Except.error err, reg) →
      err.code = 500 ∧ reg = models) ∧
    (∀ msg reg, load_model env models name rid ver = (Except.ok msg, reg) →
      ∃ m, reg = regSet models name
        { model := m, model_name := name, version := ver,
          mlflow_run_id := rid, loaded_at := env.now, request_count := 0 }) := by
  rcases hdl : env.downloadArtifacts with e | local_path
  · constructor
    · intro err reg h
      simp [load_model, hdl] at h
      exact ⟨by simp [← h.1], h.2.symm⟩
    · intro msg reg h
      simp [load_model, hdl] at h
  · rcases hdir : env.isDir with _ | _
    · rcases hload : env.loadFile local_path with e | m
      · constructor
        · intro err reg h
          simp [load_model, hdl, hdir, hload] at h
          exact ⟨by simp [← h.1], h.2.symm⟩
        · intro msg reg h
          simp [load_model, hdl, hdir, hload] at h
      · constructor
        · intro err reg h
          simp [load_model, hdl, hdir, hload] at h
        · intro msg reg h
          simp [load_model, hdl, hdir, hload] at h
          exact ⟨m, h.2.symm⟩
    · rcases hjf : env.joblibFiles with _ | ⟨f, fs⟩
      · rcases hdf : env.dirFiles with _ | ⟨g, gs⟩
        · constructor
          · intro err reg h
            simp [load_model, hdl, hdir, hjf, hdf] at h
            exact ⟨by simp [← h.1], h.2.symm⟩
          · intro msg reg h
            simp [load_model, hdl, hdir, hjf, hdf] at h
        · rcases hload : env.loadFile g with e | m
          · constructor
            · intro err reg h
              simp [load_model, hdl, hdir, hjf, hdf, hload] at h
              exact ⟨by simp [← h.1], h.2.symm⟩
            · intro msg reg h
              simp [load_model, hdl, hdir, hjf, hdf, hload] at h
          · constructor
            · intro err reg h
              simp [load_model, hdl, hdir, hjf, hdf, hload] at h
            · intro msg reg h
              simp [load_model, hdl, hdir, hjf, hdf, hload] at h
              exact ⟨m, h.2.symm⟩
      · rcases hload : env.loadFile f with e | m
        · constructor
          · intro err reg h
            simp [load_model, hdl, hdir, hjf, hload] at h
            exact ⟨by simp [← h.1], h.2.symm⟩
          · intro msg reg h
            simp [load_model, hdl, hdir, hjf, hload] at h
        · constructor
          · intro err reg h
            simp [load_model, hdl, hdir, hjf, hload] at h
          · intro msg reg h
            simp [load_model, hdl, hdir, hjf, hload] at h
            exact ⟨m, h.2.symm⟩

/-- A concrete environment whose artifact download fails. -/
def failingLoadEnv : LoadEnv :=
  ⟨Except.error "connection refused", false, [], [], fun _ => Except.error "unused", 7⟩

/-- Witness for C10: a failed download yields 500 and leaves a concrete
registry unchanged. -/
theorem load_model_spec_witness :
    (⟨500, "Failed to load model: connection refused"⟩ : HttpError).code = 500 ∧
    (load_model failingLoadEnv [("iris", demoEntry)] "iris" "r" "2").2 =
      [("iris", demoEntry)] := by
  have h := (load_model_spec failingLoadEnv [("iris", demoEntry)] "iris" "r" "2").1
    ⟨500, "Failed to load model: connection refused"⟩
    (load_model failingLoadEnv [("iris", demoEntry)] "iris" "r" "2").2 rfl
  exact ⟨h.1, h.2⟩

/-! ### Pipeline execution engine embedding (src/backend/tasks/celery_tasks.py)

`run_pipeline` is embedded as a deterministic function of an environment
record giving the outcome of every external call (GitHub download, papermill,
MLflow, the deploy HTTP call, the deployment transaction, Redis availability,
and the worker-shutdown flag sampled at each of its three checks), threading
an explicit world state (the pipeline DB row, the Redis phase log, the
`model_deployments` table, and a clock supplying timestamps). -/

/-- The settings fields read by `run_pipeline`. -/
structure EngineSettings where
  auto_deploy_on_success : Bool
  min_accuracy_threshold : ℚ
  model_server_url : String
deriving Repr, DecidableEq

/-- A JSON metric value: the run's metrics map holds numbers from MLflow plus
the boolean `deployed` flag. -/
inductive MetricVal
  | num (q : ℚ)
  | bool (b : Bool)
deriving Repr, DecidableEq

/-- Python dict get on the metrics map. -/
def dictGet : List (String × MetricVal) → String → Option MetricVal
  | [], _ => none
  | (k, v) :: t, n => if k = n then some v else dictGet t n

/-- Python dict assignment on the metrics map. -/
def dictSet : List (String × MetricVal) → String → MetricVal → List (String × MetricVal)
  | [], n, v => [(n, v)]
  | (k, v0) :: t, n, v => if k = n then (n, v) :: t else (k, v0) :: dictSet t n v

/-- One entry of the run's `phases` list (the dict built by `_phase`). -/
structure PhaseEntry where
  name : String
  status : String
  timestamp : Nat
  logs : String
deriving Repr, DecidableEq

/-- The pipeline row mutated by `_update_pipeline_db`. -/
structure DbPipeline where
  status : String
  phases : List PhaseEntry
  metrics : List (String × MetricVal)
  started_at : Option Nat
  finished_at : Option Nat
deriving Repr, DecidableEq

/-- A `ModelDeployment` row. -/
structure DeploymentRecord where
  model_name : String
  version : String
  accuracy : ℚ
  endpoint_url : String
  is_active : Bool
  pipeline_id : Option String
deriving Repr, DecidableEq

/-- Durable state visible outside the worker process. -/
structure WorldState where
  db : DbPipeline
  redisLog : List PhaseEntry
  deployments : List DeploymentRecord
  clock : Nat
deriving Repr, DecidableEq

/-- Outcomes of the external calls of one run. `shutdown1..3` are the values
of the `_shutting_down` flag at its three between-phase checks. -/
structure Env where
  redisOk : Bool
  repoExists : Bool
  download : Except String Notebook
  shutdown1 : Bool
  shutdown2 : Bool
  shutdown3 : Bool
  execute : Except String String
  register : Except String (List (String × ℚ))
  deployHttp : Except String Unit
  deployDb : Except String Unit

/-- The dict returned by the Celery task. -/
inductive TaskResult
  | success (metrics : List (String × MetricVal))
  | failedShutdown
  | failedError (msg : String)
deriving Repr, DecidableEq

/-- `_publish_phase`: publish + rpush the event; raises when Redis is down. -/
def publishPhase (env : Env) (w : WorldState) (name status logs : String) :
    Except String WorldState :=
  if env.redisOk then
    Except.ok
      { w with
          redisLog := w.redisLog ++ [⟨name, status, w.clock, logs⟩]
          clock := w.clock + 1 }
  else Except.error "redis connection error"

/-- `_phase`: append the entry to the in-memory list, publish it, then persist
the accumulated list.  A Redis failure raises after the in-memory append and
before the DB write, so the error carries the appended list. -/
def phaseStep (env : Env) (w : WorldState) (pm : List PhaseEntry)
    (name status logs : String) :
    Except (String × List PhaseEntry) (List PhaseEntry × WorldState) :=
  let pm2 := pm ++ [⟨name, status, w.clock, logs⟩]
  match publishPhase env w name status logs with
  | Except.error e => Except.error (e, pm2)
  | Except.ok w1 => Except.ok (pm2, { w1 with db := { w1.db with phases := pm2 } })

/-- The deploy-phase transaction: deactivate every active record of the same
model name and insert the new active record, as one atomic commit. -/
def promoteDeployments (deps : List DeploymentRecord) (name version : String)
    (acc : ℚ) (endpoint pid : String) : List DeploymentRecord :=
  (deps.map fun p =>
    if p.model_name = name ∧ p.is_active = true then { p with is_active := false } else p)
    ++ [⟨name, version, acc, endpoint, true, some pid⟩]

/-- Control-flow outcome of the `try` body of `run_pipeline`. -/
inductive BodyOut
  | done (ms : List (String × MetricVal)) (w : WorldState)
  | sysexit (pm : List PhaseEntry) (w : WorldState)
  | raised (msg : String) (pm : List PhaseEntry) (ms : List (String × MetricVal)) (w : WorldState)
deriving Repr, DecidableEq

/-- Tail of the body after the deploy section: set `metrics["deployed"]`,
persist the successful run, publish the `complete` event. -/
def finishSuccess (env : Env) (ms : List (String × MetricVal)) (pm : List PhaseEntry)
    (w : WorldState) (deployed : Bool) : BodyOut :=
  let ms2 := dictSet ms "deployed" (MetricVal.bool deployed)
  let t := w.clock
  let w2 : WorldState :=
    { w with
        db := { w.db with
                  status := "success", phases := pm, metrics := ms2
                  finished_at := some t }
        clock := t + 1 }
  match publishPhase env w2 "complete" "success" "" with
  | Except.error e => BodyOut.raised e pm ms2 w2
  | Except.ok w3 => BodyOut.done ms2 w3

/-- Phase 5 (conditional deploy) plus the success epilogue. -/
def deploySection (s : EngineSettings) (env : Env) (pid : String)
    (cfg : NotebookConfig) (acc : ℚ) (ms : List (String × MetricVal))
    (pm : List PhaseEntry) (w : WorldState) : BodyOut :=
  if s.auto_deploy_on_success = true ∧ s.min_accuracy_threshold ≤ acc then
    match phaseStep env w pm "deploy" "running" "" with
    | Except.error (e, pmE) => BodyOut.raised e pmE ms w
    | Except.ok (pm1, w1) =>
      match env.deployHttp with
      | Except.error e =>
        match phaseStep env w1 pm1 "deploy" "failed" e with
        | Except.error (e2, pmE) => BodyOut.raised e2 pmE ms w1
        | Except.ok (pm2, w2) => finishSuccess env ms pm2 w2 false
      | Except.ok _ =>
        match env.deployDb with
        | Except.error e =>
          match phaseStep env w1 pm1 "deploy" "failed" e with
          | Except.error (e2, pmE) => BodyOut.raised e2 pmE ms w1
          | Except.ok (pm2, w2) => finishSuccess env ms pm2 w2 false
        | Except.ok _ =>
          let endpoint := s.model_server_url ++ "/predict/" ++ cfg.model_name
          let deps2 := promoteDeployments w1.deployments cfg.model_name cfg.version acc endpoint pid
          let w2 : WorldState := { w1 with deployments := deps2 }
          match phaseStep env w2 pm1 "deploy" "success" "" with
          | Except.error (e, pmE) => BodyOut.raised e pmE ms w2
          | Except.ok (pm2, w3) => finishSuccess env ms pm2 w3 true
  else finishSuccess env ms pm w false

/-- `accuracy = metrics.get("accuracy", 0.0)` over the metrics read back from
MLflow. -/
def registeredAccuracy (mread : List (String × ℚ)) : ℚ :=
  match dictGet (mread.map fun kv => (kv.1, MetricVal.num kv.2)) "accuracy" with
  | some (MetricVal.num q) => q
  | _ => 0

/-- Phase 4: MLflow registration; the metrics read already folds in the inner
`except` that turns a read failure into an empty map. -/
def registerStage (s : EngineSettings) (env : Env) (pid : String)
    (cfg : NotebookConfig) (pm : List PhaseEntry) (w : WorldState) : BodyOut :=
  match phaseStep env w pm "register" "running" "" with
  | Except.error (e, pmE) => BodyOut.raised e pmE [] w
  | Except.ok (pm1, w1) =>
    match env.register with
    | Except.error e => BodyOut.raised e pm1 [] w1
    | Except.ok mread =>
      let ms := mread.map (fun kv => (kv.1, MetricVal.num kv.2))
      let acc : ℚ := registeredAccuracy mread
      match phaseStep env w1 pm1 "register" "success" "" with
      | Except.error (e, pmE) => BodyOut.raised e pmE ms w1
      | Except.ok (pm2, w2) => deploySection s env pid cfg acc ms pm2 w2

/-- Phase 3: papermill execution. -/
def executeStage (s : EngineSettings) (env : Env) (pid : String)
    (cfg : NotebookConfig) (pm : List PhaseEntry) (w : WorldState) : BodyOut :=
  match phaseStep env w pm "execute" "running" "" with
  | Except.error (e, pmE) => BodyOut.raised e pmE [] w
  | Except.ok (pm1, w1) =>
    match env.execute with
    | Except.error e => BodyOut.raised e pm1 [] w1
    | Except.ok logs =>
      match phaseStep env w1 pm1 "execute" "success" logs with
      | Except.error (e, pmE) => BodyOut.raised e pmE [] w1
      | Except.ok (pm2, w2) =>
        if env.shutdown3 then BodyOut.sysexit pm2 w2
        else registerStage s env pid cfg pm2 w2

/-- Phase 2: tag validation and config extraction. -/
def validateStage (s : EngineSettings) (env : Env) (pid : String)
    (nb : Notebook) (pm : List PhaseEntry) (w : WorldState) : BodyOut :=
  match phaseStep env w pm "validate" "running" "" with
  | Except.error (e, pmE) => BodyOut.raised e pmE [] w
  | Except.ok (pm1, w1) =>
    match validate_required_tags nb with
    | Except.error e => BodyOut.raised e pm1 [] w1
    | Except.ok _ =>
      match extract_config nb with
      | Except.error e => BodyOut.raised e pm1 [] w1
      | Except.ok cfg =>
        match phaseStep env w1 pm1 "validate" "success" "" with
        | Except.error (e, pmE) => BodyOut.raised e pmE [] w1
        | Except.ok (pm2, w2) =>
          if env.shutdown2 then BodyOut.sysexit pm2 w2
          else executeStage s env pid cfg pm2 w2

/-- The whole `try` body: mark the run running, then phase 1 (download) and
the rest of the chain. -/
def runBody (s : EngineSettings) (env : Env) (pid : String) (repoId : Nat)
    (w0 : WorldState) : BodyOut :=
  let t0 := w0.clock
  let w : WorldState :=
    { w0 with
        db := { w0.db with status := "running", started_at := some t0 }
        clock := t0 + 1 }
  match phaseStep env w [] "download" "running" "" with
  | Except.error (e, pmE) => BodyOut.raised e pmE [] w
  | Except.ok (pm1, w1) =>
    if env.repoExists = false then
      BodyOut.raised ("Repository " ++ toString repoId ++ " not found.") pm1 [] w1
    else
      match env.download with
      | Except.error e => BodyOut.raised e pm1 [] w1
      | Except.ok nb =>
        match phaseStep env w1 pm1 "download" "success" "" with
        | Except.error (e, pmE) => BodyOut.raised e pmE [] w1
        | Except.ok (pm2, w2) =>
          if env.shutdown1 then BodyOut.sysexit pm2 w2
          else validateStage s env pid nb pm2 w2

/-- The `except SystemExit` handler: persist the failed run, then publish a
`shutdown` event (whose own failure escapes the task). -/
def handleShutdown (env : Env) (pm : List PhaseEntry) (w : WorldState) :
    Except String TaskResult × WorldState :=
  let t := w.clock
  let w1 : WorldState :=
    { w with
        db := { w.db with status := "failed", phases := pm, finished_at := some t }
        clock := t + 1 }
  match publishPhase env w1 "shutdown" "failed" "Worker shutting down" with
  | Except.error e => (Except.error e, w1)
  | Except.ok w2 => (Except.ok TaskResult.failedShutdown, w2)

/-- The `except Exception` handler: record an `error` phase entry, then
persist the failed run; the `_phase` call publishes before persisting, so a
Redis failure there escapes with the DB untouched by the handler. -/
def handleFailure (env : Env) (msg : String) (pm : List PhaseEntry)
    (ms : List (String × MetricVal)) (w : WorldState) :
    Except String TaskResult × WorldState :=
  match phaseStep env w pm "error" "failed" msg with
  | Except.error (e2, _) => (Except.error e2, w)
  | Except.ok (pm2, w1) =>
    let t := w1.clock
    let w2 : WorldState :=
      { w1 with
          db := { w1.db with
                    status := "failed", phases := pm2, metrics := ms
                    finished_at := some t }
          clock := t + 1 }
    (Except.ok (TaskResult.failedError msg), w2)

/-- `run_pipeline`: the body with its two exception handlers.  An `.error`
result is an exception escaping the task uncaught. -/
def run_pipeline (s : EngineSettings) (env : Env) (pid : String) (repoId : Nat)
    (w0 : WorldState) : Except String TaskResult × WorldState :=
  match runBody s env pid repoId w0 with
  | BodyOut.done ms w => (Except.ok (TaskResult.success ms), w)
  | BodyOut.sysexit pm w => handleShutdown env pm w
  | BodyOut.raised msg pm ms w => handleFailure env msg pm ms w

/-- The initial world of a freshly-triggered run. -/
def initialWorld : WorldState :=
  ⟨⟨"queued", [], [], none, none⟩, [], [], 0⟩

/-- A notebook with all four required tags and a full config cell. -/
def demoNb : Notebook :=
  ⟨[⟨["mlops:config"], "MODEL_NAME=\x22iris-classifier\x22\nVERSION=\x221\x22"⟩,
    ⟨["mlops:preprocessing"], "prep"⟩,
    ⟨["mlops:training"], "train"⟩,
    ⟨["mlops:export"], "export"⟩]⟩

/-- Default-ish engine settings: auto-deploy on, threshold 0.70. -/
def demoSettings : EngineSettings := ⟨true, mkRat 7 10, "http://model-server:8001"⟩

/-- Fully healthy environment reporting accuracy 0.95. -/
def demoEnvOk : Env :=
  ⟨true, true, Except.ok demoNb, false, false, false, Except.ok "[]",
    Except.ok [("accuracy", mkRat 95 100)], Except.ok (), Except.ok ()⟩

example :
    ((run_pipeline demoSettings demoEnvOk "pid-1" 1 initialWorld).2.db.phases.map
      (fun e => (e.name, e.status))) =
    [("download", "running"), ("download", "success"), ("validate", "running"),
     ("validate", "success"), ("execute", "running"), ("execute", "success"),
     ("register", "running"), ("register", "success"), ("deploy", "running"),
     ("deploy", "success")] := by decide

example :
    (run_pipeline demoSettings demoEnvOk "pid-1" 1 initialWorld).2.db.status = "success" ∧
    dictGet (run_pipeline demoSettings demoEnvOk "pid-1" 1 initialWorld).2.db.metrics "deployed"
      = some (MetricVal.bool true) ∧
    (run_pipeline demoSettings demoEnvOk "pid-1" 1 initialWorld).2.deployments =
      [⟨"iris-classifier", "1", mkRat 95 100, "http://model-server:8001/predict/iris-classifier",
        true, some "pid-1"⟩] := by decide

example :
    ((run_pipeline demoSettings { demoEnvOk with register := Except.ok [("accuracy", mkRat 1 2)] }
        "pid-1" 1 initialWorld).2.db.phases.map (fun e => e.name)).contains "deploy" = false ∧
    (run_pipeline demoSettings { demoEnvOk with register := Except.ok [("accuracy", mkRat 1 2)] }
        "pid-1" 1 initialWorld).2.db.status = "success" := by decide

example :
    ((run_pipeline demoSettings { demoEnvOk with download := Except.ok nbMissingTwo }
        "pid-1" 1 initialWorld).2.db.phases.map (fun e => (e.name, e.status))) =
    [("download", "running"), ("download", "success"), ("validate", "running"),
     ("error", "failed")] ∧
    (run_pipeline demoSettings { demoEnvOk with download := Except.ok nbMissingTwo }
        "pid-1" 1 initialWorld).2.db.status = "failed" := by decide

example :
    (run_pipeline demoSettings { demoEnvOk with redisOk := false } "pid-1" 1 initialWorld).1 =
      Except.error "redis connection error" := rfl

example :
    (run_pipeline demoSettings { demoEnvOk with redisOk := false } "pid-1" 1
      initialWorld).2.db.status = "running" := by decide

/-! ### Dict lemma shared by the engine claims -/

lemma dictGet_dictSet_same (m : List (String × MetricVal)) (k : String) (v : MetricVal) :
    dictGet (dictSet m k v) k = some v := by
  induction m with
  | nil => simp [dictSet, dictGet]
  | cons p t ih =>
    rcases p with ⟨k0, v0⟩
    by_cases hk : k0 = k
    · simp [dictSet, hk, dictGet]
    · simp [dictSet, hk, dictGet, ih]

/-! ### Claim C7 -/

/-- A downloadable notebook missing exactly the `mlops:training` tag. -/
def nbNoTrain : Notebook :=
  ⟨[⟨["mlops:config"], "MODEL_NAME=\x22m\x22"⟩,
    ⟨["mlops:preprocessing"], "prep"⟩,
    ⟨["mlops:export"], "export"⟩]⟩

/-- Healthy environment whose downloaded notebook is `nbNoTrain`. -/
def envNoTrain : Env := { demoEnvOk with download := Except.ok nbNoTrain }

/-- C7 counterexample: for a downloadable notebook missing `mlops:training`,
the run does fail right after validate with exactly one failed entry, but
that entry is named `error` (appended by the generic `except Exception`
handler), not `validate`; no phase entry named `validate` is ever failed. -/
theorem validate_failure_claim_counterexample :
    (run_pipeline demoSettings envNoTrain "pid-7" 1 initialWorld).2.db.status = "failed" ∧
    ((run_pipeline demoSettings envNoTrain "pid-7" 1 initialWorld).2.db.phases.filter
      (fun e => e.status == "failed")).map (fun e => e.name) = ["error"] ∧
    (∀ e ∈ (run_pipeline demoSettings envNoTrain "pid-7" 1 initialWorld).2.db.phases,
      ¬(e.status = "failed" ∧ e.name = "validate")) := by decide

/-- C7 (amended): with Redis up and no shutdown, a downloadable notebook
missing `mlops:training` ends the run `failed` immediately after the
validate phase; the persisted phases are exactly download running/success,
validate running, and one failed entry named `error` — so exactly one failed
entry exists, and no execute/register/deploy entry is ever created. -/
theorem validate_failure_run_spec
    (s : EngineSettings) (env : Env) (pid : String) (rid : Nat) (w0 : WorldState)
    (nb : Notebook)
    (hr : env.redisOk = true) (h1 : env.shutdown1 = false)
    (hrepo : env.repoExists = true)
    (hdl : env.download = Except.ok nb)
    (hmiss : get_cells_by_tag nb "mlops:training" = []) :
    ((run_pipeline s env pid rid w0).2.db.phases.map (fun e => (e.name, e.status))) =
      [("download", "running"), ("download", "success"), ("validate", "running"),
        ("error", "failed")] ∧
    (run_pipeline s env pid rid w0).2.db.status = "failed" ∧
    (run_pipeline s env pid rid w0).2.db.finished_at.isSome = true := by
  have htr : "mlops:training" ∈ missingRequiredTags nb := by
    simp [missingRequiredTags, List.mem_filter, hmiss, REQUIRED_TAGS]
  have hne : (missingRequiredTags nb).isEmpty = false := by
    cases hm : missingRequiredTags nb with
    | nil => rw [hm] at htr; simp at htr
    | cons a t => rfl
  refine ⟨?_, ?_, ?_⟩ <;>
    simp [run_pipeline, runBody, validateStage, phaseStep, publishPhase, handleFailure,
      validate_required_tags, hr, hrepo, hdl, h1, hne]

/-- Witness for the amended C7 theorem at the concrete notebook. -/
theorem validate_failure_run_spec_witness :
    ((run_pipeline demoSettings envNoTrain "pid-7w" 1 initialWorld).2.db.phases.map
      (fun e => (e.name, e.status))) =
      [("download", "running"), ("download", "success"), ("validate", "running"),
        ("error", "failed")] ∧
    (run_pipeline demoSettings envNoTrain "pid-7w" 1 initialWorld).2.db.status = "failed" ∧
    (run_pipeline demoSettings envNoTrain "pid-7w" 1 initialWorld).2.db.finished_at.isSome
      = true :=
  validate_failure_run_spec demoSettings envNoTrain "pid-7w" 1 initialWorld nbNoTrain
    rfl rfl rfl rfl (by decide)

/-! ### Claim C8 -/

/-- Healthy environment except that Redis is down. -/
def envRedisDown : Env := { demoEnvOk with redisOk := false }

/-- C8 evidence: a broadcaster failure does fail the owning operation.  With
Redis down, the very first `_phase` publish raises, the `except Exception`
handler's own `_phase("error", ...)` publish raises again, the exception
escapes `run_pipeline`, and the durable store is left with status `running`
and no phases — whereas the identical run with the broadcaster healthy ends
`success`.  The terminal outcome is not preserved. -/
theorem broadcast_failure_not_contained :
    (run_pipeline demoSettings envRedisDown "pid-8" 1 initialWorld).1 =
      Except.error "redis connection error" ∧
    (run_pipeline demoSettings envRedisDown "pid-8" 1 initialWorld).2.db.status = "running" ∧
    (run_pipeline demoSettings envRedisDown "pid-8" 1 initialWorld).2.db.phases = [] ∧
    (run_pipeline demoSettings demoEnvOk "pid-8" 1 initialWorld).1 =
      Except.ok (TaskResult.success
        [("accuracy", MetricVal.num (mkRat 95 100)), ("deployed", MetricVal.bool true)]) ∧
    (run_pipeline demoSettings demoEnvOk "pid-8" 1 initialWorld).2.db.status = "success" :=
  ⟨rfl, by decide, by decide, rfl, by decide⟩

/-! ### Claim C5 -/

/-- C5: when auto-deploy is disabled or the registered accuracy is below the
threshold, the deploy phase is skipped entirely — no phase entry named
`deploy` (of any status) is ever created, `metrics["deployed"]` is `false`,
and the run still ends `success`. -/
theorem deploy_skipped_spec
    (s : EngineSettings) (env : Env) (pid : String) (rid : Nat) (w0 : WorldState)
    (nb : Notebook) (cfg : NotebookConfig) (logs : String) (mr : List (String × ℚ))
    (hr : env.redisOk = true)
    (h1 : env.shutdown1 = false) (h2 : env.shutdown2 = false) (h3 : env.shutdown3 = false)
    (hrepo : env.repoExists = true)
    (hdl : env.download = Except.ok nb)
    (hvalid : validate_required_tags nb = Except.ok ())
    (hcfg : extract_config nb = Except.ok cfg)
    (hexec : env.execute = Except.ok logs)
    (hreg : env.register = Except.ok mr)
    (hskip : ¬(s.auto_deploy_on_success = true ∧
      s.min_accuracy_threshold ≤ registeredAccuracy mr)) :
    (run_pipeline s env pid rid w0).2.db.status = "success" ∧
    dictGet (run_pipeline s env pid rid w0).2.db.metrics "deployed"
      = some (MetricVal.bool false) ∧
    (∀ e ∈ (run_pipeline s env pid rid w0).2.db.phases, e.name ≠ "deploy") ∧
    (run_pipeline s env pid rid w0).1 = Except.ok (TaskResult.success
      (dictSet (mr.map fun kv => (kv.1, MetricVal.num kv.2)) "deployed"
        (MetricVal.bool false))) := by
  refine ⟨?_, ?_, ?_, ?_⟩ <;>
    simp [run_pipeline, runBody, validateStage, executeStage, registerStage, deploySection,
      finishSuccess, phaseStep, publishPhase, hr, hrepo, hdl, hvalid, hcfg, hexec, hreg,
      h1, h2, h3, if_neg hskip, dictGet_dictSet_same]

/-- Healthy environment reporting accuracy 0.5 (below the 0.7 threshold). -/
def envLowAcc : Env := { demoEnvOk with register := Except.ok [("accuracy", mkRat 1 2)] }

/-- Witness for C5: accuracy 0.5 against threshold 0.7. -/
theorem deploy_skipped_spec_witness :
    (run_pipeline demoSettings envLowAcc "pid-5" 1 initialWorld).2.db.status = "success" ∧
    dictGet (run_pipeline demoSettings envLowAcc "pid-5" 1 initialWorld).2.db.metrics
      "deployed" = some (MetricVal.bool false) ∧
    (∀ e ∈ (run_pipeline demoSettings envLowAcc "pid-5" 1 initialWorld).2.db.phases,
      e.name ≠ "deploy") ∧
    (run_pipeline demoSettings envLowAcc "pid-5" 1 initialWorld).1 =
      Except.ok (TaskResult.success
        (dictSet ([("accuracy", mkRat 1 2)].map fun kv => (kv.1, MetricVal.num kv.2))
          "deployed" (MetricVal.bool false))) :=
  deploy_skipped_spec demoSettings envLowAcc "pid-5" 1 initialWorld demoNb
    ⟨"iris-classifier", "1"⟩ "[]" [("accuracy", mkRat 1 2)]
    rfl rfl rfl rfl rfl rfl rfl rfl rfl rfl (by decide)

/-! ### Claim C6 -/

/-- C6: once the deploy phase is reached, any deployment failure (load call
or record write) marks only the deploy phase failed: the run still ends
`success` with a finish timestamp, `metrics` always gains a boolean
`deployed` that is true exactly when both deployment steps succeeded, the
sole failed phase entry (if any) is named `deploy`, and the final `complete`
event is still published. -/
theorem deploy_failure_contained_spec
    (s : EngineSettings) (env : Env) (pid : String) (rid : Nat) (w0 : WorldState)
    (nb : Notebook) (cfg : NotebookConfig) (logs : String) (mr : List (String × ℚ))
    (hr : env.redisOk = true)
    (h1 : env.shutdown1 = false) (h2 : env.shutdown2 = false) (h3 : env.shutdown3 = false)
    (hrepo : env.repoExists = true)
    (hdl : env.download = Except.ok nb)
    (hvalid : validate_required_tags nb = Except.ok ())
    (hcfg : extract_config nb = Except.ok cfg)
    (hexec : env.execute = Except.ok logs)
    (hreg : env.register = Except.ok mr)
    (hcond : s.auto_deploy_on_success = true ∧
      s.min_accuracy_threshold ≤ registeredAccuracy mr) :
    (run_pipeline s env pid rid w0).2.db.status = "success" ∧
    (run_pipeline s env pid rid w0).2.db.finished_at.isSome = true ∧
    (∃ b, dictGet (run_pipeline s env pid rid w0).2.db.metrics "deployed"
        = some (MetricVal.bool b) ∧
      (b = true ↔ (env.deployHttp = Except.ok () ∧ env.deployDb = Except.ok ()))) ∧
    (¬(env.deployHttp = Except.ok () ∧ env.deployDb = Except.ok ()) →
      ((run_pipeline s env pid rid w0).2.db.phases.filter
        (fun e => e.status == "failed")).map (fun e => e.name) = ["deploy"]) ∧
    ((run_pipeline s env pid rid w0).2.redisLog.map (fun e => e.name)).getLast?
      = some "complete" := by
  rcases hD : env.deployHttp with e | u
  · refine ⟨?_, ?_, ⟨false, ?_, ?_⟩, ?_, ?_⟩ <;>
      simp [run_pipeline, runBody, validateStage, executeStage, registerStage, deploySection,
        finishSuccess, phaseStep, publishPhase, hr, hrepo, hdl, hvalid, hcfg, hexec, hreg,
        h1, h2, h3, if_pos hcond, hD, dictGet_dictSet_same,
        List.getLast?_append_of_ne_nil]
  · cases u
    rcases hDb : env.deployDb with e | u2
    · refine ⟨?_, ?_, ⟨false, ?_, ?_⟩, ?_, ?_⟩ <;>
        simp [run_pipeline, runBody, validateStage, executeStage, registerStage, deploySection,
          finishSuccess, phaseStep, publishPhase, hr, hrepo, hdl, hvalid, hcfg, hexec, hreg,
          h1, h2, h3, if_pos hcond, hD, hDb, dictGet_dictSet_same,
          List.getLast?_append_of_ne_nil]
    · cases u2
      refine ⟨?_, ?_, ⟨true, ?_, ?_⟩, ?_, ?_⟩ <;>
        simp [run_pipeline, runBody, validateStage, executeStage, registerStage, deploySection,
          finishSuccess, phaseStep, publishPhase, hr, hrepo, hdl, hvalid, hcfg, hexec, hreg,
          h1, h2, h3, if_pos hcond, hD, hDb, dictGet_dictSet_same,
          List.getLast?_append_of_ne_nil]

/-- Healthy environment whose deploy HTTP call fails. -/
def envDeployFail : Env := { demoEnvOk with deployHttp := Except.error "load timeout" }

/-- Witness for C6 at a concrete failing deploy call. -/
theorem deploy_failure_contained_spec_witness :
    (run_pipeline demoSettings envDeployFail "pid-6" 1 initialWorld).2.db.status = "success" ∧
    (run_pipeline demoSettings envDeployFail "pid-6" 1 initialWorld).2.db.finished_at.isSome
      = true ∧
    (∃ b, dictGet (run_pipeline demoSettings envDeployFail "pid-6" 1 initialWorld).2.db.metrics
        "deployed" = some (MetricVal.bool b) ∧
      (b = true ↔ (envDeployFail.deployHttp = Except.ok () ∧
        envDeployFail.deployDb = Except.ok ()))) ∧
    (¬(envDeployFail.deployHttp = Except.ok () ∧ envDeployFail.deployDb = Except.ok ()) →
      ((run_pipeline demoSettings envDeployFail "pid-6" 1 initialWorld).2.db.phases.filter
        (fun e => e.status == "failed")).map (fun e => e.name) = ["deploy"]) ∧
    ((run_pipeline demoSettings envDeployFail "pid-6" 1 initialWorld).2.redisLog.map
      (fun e => e.name)).getLast? = some "complete" :=
  deploy_failure_contained_spec demoSettings envDeployFail "pid-6" 1 initialWorld demoNb
    ⟨"iris-classifier", "1"⟩ "[]" [("accuracy", mkRat 95 100)]
    rfl rfl rfl rfl rfl rfl rfl rfl rfl rfl ⟨rfl, by decide⟩

/-! ### Claim C2 -/

lemma promote_countP (deps : List DeploymentRecord) (n v : String) (a : ℚ) (ep pid : String) :
    (promoteDeployments deps n v a ep pid).countP
      (fun d => decide (d.model_name = n ∧ d.is_active = true)) = 1 := by
  rw [promoteDeployments, List.countP_append]
  have hmap : (deps.map fun d =>
      if d.model_name = n ∧ d.is_active = true then { d with is_active := false } else d).countP
      (fun d => decide (d.model_name = n ∧ d.is_active = true)) = 0 := by
    induction deps with
    | nil => rfl
    | cons d t ih =>
      by_cases hd : d.model_name = n ∧ d.is_active = true
      · simp only [List.map_cons, List.countP_cons, if_pos hd, ih]
        simp
      · simp only [List.map_cons, List.countP_cons, if_neg hd, ih]
        simp [hd]
  rw [hmap]
  simp [List.countP_cons]

lemma promote_active_unique (deps : List DeploymentRecord) (n v : String) (a : ℚ)
    (ep pid : String) :
    ∀ d ∈ promoteDeployments deps n v a ep pid, d.model_name = n → d.is_active = true →
      d = ⟨n, v, a, ep, true, some pid⟩ := by
  intro d hd hn ha
  rw [promoteDeployments] at hd
  rcases List.mem_append.mp hd with hm | hm
  · rcases List.mem_map.mp hm with ⟨d0, hd0, heq⟩
    by_cases hc : d0.model_name = n ∧ d0.is_active = true
    · rw [if_pos hc] at heq
      rw [← heq] at ha
      simp at ha
    · rw [if_neg hc] at heq
      rw [← heq] at hn ha
      exact absurd ⟨hn, ha⟩ hc
  · simpa using hm

lemma promote_prior_inactive (deps : List DeploymentRecord) (n v : String) (a : ℚ)
    (ep pid : String) :
    ∀ (i : Nat) (p0 : DeploymentRecord), deps[i]? = some p0 → p0.model_name = n →
      ∃ p1 : DeploymentRecord, (promoteDeployments deps n v a ep pid)[i]? = some p1 ∧
        p1.is_active = false ∧ p1.model_name = n := by
  intro i p0 hi hn
  have hlen : i < deps.length := (List.getElem?_eq_some.mp hi).1
  rw [promoteDeployments]
  rw [List.getElem?_append]
  have hlt : i < (deps.map fun d =>
      if d.model_name = n ∧ d.is_active = true then { d with is_active := false } else d).length := by
    simpa using hlen
  rw [if_pos hlt, List.getElem?_map, hi]
  by_cases hact : p0.is_active = true
  · exact ⟨{ p0 with is_active := false }, by simp [hn, hact], rfl, by simp [hn]⟩
  · have hact' : p0.is_active = false := by
      cases hb : p0.is_active
      · rfl
      · exact absurd hb hact
    refine ⟨p0, ?_, hact', hn⟩
    simp [hact']

/-- C2: a successful deploy performs the deactivate-all-then-insert as one
transition of the deployments table (one transaction commit): afterwards the
table is exactly `promoteDeployments` of its prior value, there is exactly
one active record for the model name, that record carries the current run's
id, version, accuracy and endpoint, every prior record of the same name is
inactive, and `metrics["deployed"]` is true. -/
theorem promotion_invariant_spec
    (s : EngineSettings) (env : Env) (pid : String) (rid : Nat) (w0 : WorldState)
    (nb : Notebook) (cfg : NotebookConfig) (logs : String) (mr : List (String × ℚ))
    (hr : env.redisOk = true)
    (h1 : env.shutdown1 = false) (h2 : env.shutdown2 = false) (h3 : env.shutdown3 = false)
    (hrepo : env.repoExists = true)
    (hdl : env.download = Except.ok nb)
    (hvalid : validate_required_tags nb = Except.ok ())
    (hcfg : extract_config nb = Except.ok cfg)
    (hexec : env.execute = Except.ok logs)
    (hreg : env.register = Except.ok mr)
    (hcond : s.auto_deploy_on_success = true ∧
      s.min_accuracy_threshold ≤ registeredAccuracy mr)
    (hD : env.deployHttp = Except.ok ())
    (hDb : env.deployDb = Except.ok ()) :
    (run_pipeline s env pid rid w0).2.deployments =
      promoteDeployments w0.deployments cfg.model_name cfg.version (registeredAccuracy mr)
        (s.model_server_url ++ "/predict/" ++ cfg.model_name) pid ∧
    (run_pipeline s env pid rid w0).2.deployments.countP
      (fun d => decide (d.model_name = cfg.model_name ∧ d.is_active = true)) = 1 ∧
    (∀ d ∈ (run_pipeline s env pid rid w0).2.deployments,
      d.model_name = cfg.model_name → d.is_active = true →
      d = ⟨cfg.model_name, cfg.version, registeredAccuracy mr,
        s.model_server_url ++ "/predict/" ++ cfg.model_name, true, some pid⟩) ∧
    (∀ (i : Nat) (p0 : DeploymentRecord), w0.deployments[i]? = some p0 →
      p0.model_name = cfg.model_name →
      ∃ p1 : DeploymentRecord, (run_pipeline s env pid rid w0).2.deployments[i]? = some p1 ∧
        p1.is_active = false ∧ p1.model_name = cfg.model_name) ∧
    dictGet (run_pipeline s env pid rid w0).2.db.metrics "deployed"
      = some (MetricVal.bool true) := by
  have hdeps : (run_pipeline s env pid rid w0).2.deployments =
      promoteDeployments w0.deployments cfg.model_name cfg.version (registeredAccuracy mr)
        (s.model_server_url ++ "/predict/" ++ cfg.model_name) pid := by
    simp [run_pipeline, runBody, validateStage, executeStage, registerStage, deploySection,
      finishSuccess, phaseStep, publishPhase, hr, hrepo, hdl, hvalid, hcfg, hexec, hreg,
      h1, h2, h3, if_pos hcond, hD, hDb]
  refine ⟨hdeps, ?_, ?_, ?_, ?_⟩
  · rw [hdeps]; exact promote_countP _ _ _ _ _ _
  · rw [hdeps]; exact promote_active_unique _ _ _ _ _ _
  · rw [hdeps]; exact promote_prior_inactive _ _ _ _ _ _
  · simp [run_pipeline, runBody, validateStage, executeStage, registerStage, deploySection,
      finishSuccess, phaseStep, publishPhase, hr, hrepo, hdl, hvalid, hcfg, hexec, hreg,
      h1, h2, h3, if_pos hcond, hD, hDb, dictGet_dictSet_same]

/-- A world already holding two active records for the model name and one
for another name. -/
def worldWithPrior : WorldState :=
  { initialWorld with deployments :=
      [⟨"iris-classifier", "0", mkRat 1 2, "old-endpoint", true, some "old-pid"⟩,
       ⟨"other-model", "1", mkRat 3 4, "x", true, none⟩,
       ⟨"iris-classifier", "0b", mkRat 2 3, "older", true, none⟩] }

/-- Witness for C2: promotion over a table with two prior active records of
the same name. -/
theorem promotion_invariant_spec_witness :
    (run_pipeline demoSettings demoEnvOk "pid-2" 1 worldWithPrior).2.deployments =
      promoteDeployments worldWithPrior.deployments "iris-classifier" "1"
        (registeredAccuracy [("accuracy", mkRat 95 100)])
        ("http://model-server:8001" ++ "/predict/" ++ "iris-classifier") "pid-2" ∧
    (run_pipeline demoSettings demoEnvOk "pid-2" 1 worldWithPrior).2.deployments.countP
      (fun d => decide (d.model_name = "iris-classifier" ∧ d.is_active = true)) = 1 ∧
    (∀ d ∈ (run_pipeline demoSettings demoEnvOk "pid-2" 1 worldWithPrior).2.deployments,
      d.model_name = "iris-classifier" → d.is_active = true →
      d = ⟨"iris-classifier", "1", registeredAccuracy [("accuracy", mkRat 95 100)],
        "http://model-server:8001" ++ "/predict/" ++ "iris-classifier", true, some "pid-2"⟩) ∧
    (∀ (i : Nat) (p0 : DeploymentRecord), worldWithPrior.deployments[i]? = some p0 →
      p0.model_name = "iris-classifier" →
      ∃ p1 : DeploymentRecord, (run_pipeline demoSettings demoEnvOk "pid-2" 1
          worldWithPrior).2.deployments[i]? = some p1 ∧
        p1.is_active = false ∧ p1.model_name = "iris-classifier") ∧
    dictGet (run_pipeline demoSettings demoEnvOk "pid-2" 1 worldWithPrior).2.db.metrics
      "deployed" = some (MetricVal.bool true) :=
  promotion_invariant_spec demoSettings demoEnvOk "pid-2" 1 worldWithPrior demoNb
    ⟨"iris-classifier", "1"⟩ "[]" [("accuracy", mkRat 95 100)]
    rfl rfl rfl rfl rfl rfl rfl rfl rfl rfl ⟨rfl, by decide⟩ rfl rfl

/-! ### Claim C1 -/

/-- The canonical phase order of the engine. -/
def phaseOrder : List String := ["download", "validate", "execute", "register", "deploy"]

/-- Derived from the environment: does some phase body raise?  (Deploy-step
failures are handled inside the deploy phase and are deliberately excluded,
matching the claim's deploy exception.) -/
def somePhaseFails (env : Env) : Bool :=
  !env.repoExists ||
  (match env.download with
   | Except.error _ => true
   | Except.ok nb =>
     !(missingRequiredTags nb).isEmpty ||
     (match env.execute with
      | Except.error _ => true
      | Except.ok _ =>
        match env.register with
        | Except.error _ => true
        | Except.ok _ => false))

lemma extract_config_isOk_of_no_missing {nb : Notebook}
    (h : (missingRequiredTags nb).isEmpty = true) :
    ∃ cfg, extract_config nb = Except.ok cfg := by
  rw [List.isEmpty_iff] at h
  have hcfgtag : ¬ ("mlops:config" ∈ missingRequiredTags nb) := by simp [h]
  simp only [missingRequiredTags, List.mem_filter] at hcfgtag
  have hnotempty : ¬ ((get_cells_by_tag nb "mlops:config").isEmpty = true) := by
    intro hc
    exact hcfgtag ⟨by simp [REQUIRED_TAGS], by simpa using hc⟩
  rcases hcells : get_cells_by_tag nb "mlops:config" with _ | ⟨c, cs⟩
  · exact absurd (by simp [hcells]) hnotempty
  · exact ⟨_, by rw [extract_config, hcells]⟩

/-- C1: with the broadcaster healthy and no worker shutdown, every run
terminates without an uncaught exception; the stored status is `failed`
exactly when some phase body raised, in which case the run has a finish
timestamp, exactly one failed phase record (the last one), and the phases
recorded (besides the handler's `error` entry) are a prefix of the phase
order — no phase after the failing one ever starts; and the status is
`success` exactly when no recorded non-deploy phase entry is failed. -/
theorem engine_failure_containment
    (s : EngineSettings) (env : Env) (pid : String) (rid : Nat) (w0 : WorldState)
    (hr : env.redisOk = true)
    (h1 : env.shutdown1 = false) (h2 : env.shutdown2 = false) (h3 : env.shutdown3 = false) :
    (run_pipeline s env pid rid w0).1.isOk = true ∧
    ((run_pipeline s env pid rid w0).2.db.status = "failed" ↔ somePhaseFails env = true) ∧
    (somePhaseFails env = true →
      (run_pipeline s env pid rid w0).2.db.finished_at.isSome = true ∧
      (run_pipeline s env pid rid w0).2.db.phases.countP
        (fun e => e.status == "failed") = 1 ∧
      ((run_pipeline s env pid rid w0).2.db.phases.getLast?).map (fun e => e.status)
        = some "failed" ∧
      ∃ k, (((run_pipeline s env pid rid w0).2.db.phases.filter
        (fun e => !(e.name == "error"))).map (fun e => e.name)).dedup = phaseOrder.take k) ∧
    ((run_pipeline s env pid rid w0).2.db.status = "success" ↔
      ∀ e ∈ (run_pipeline s env pid rid w0).2.db.phases,
        e.name ≠ "deploy" → e.status ≠ "failed") := by
  rcases hrepo : env.repoExists with _ | _
  · -- repository lookup fails
    refine ⟨?_, ?_, ?_, ?_⟩
    · simp [run_pipeline, runBody, phaseStep, publishPhase, handleFailure, Except.isOk, Except.toBool,
        hr, hrepo, h1, h2, h3]
    · simp [run_pipeline, runBody, phaseStep, publishPhase, handleFailure, somePhaseFails,
        hr, hrepo, h1, h2, h3]
    · intro _
      refine ⟨?_, ?_, ?_, ⟨1, ?_⟩⟩ <;>
        simp [run_pipeline, runBody, phaseStep, publishPhase, handleFailure,
          hr, hrepo, h1, h2, h3, phaseOrder]
    · simp [run_pipeline, runBody, phaseStep, publishPhase, handleFailure,
        hr, hrepo, h1, h2, h3]
  · rcases hdl : env.download with e | nb
    · -- download fails
      refine ⟨?_, ?_, ?_, ?_⟩
      · simp [run_pipeline, runBody, phaseStep, publishPhase, handleFailure, Except.isOk, Except.toBool,
          hr, hrepo, hdl, h1, h2, h3]
      · simp [run_pipeline, runBody, phaseStep, publishPhase, handleFailure, somePhaseFails,
          hr, hrepo, hdl, h1, h2, h3]
      · intro _
        refine ⟨?_, ?_, ?_, ⟨1, ?_⟩⟩ <;>
          simp [run_pipeline, runBody, phaseStep, publishPhase, handleFailure,
            hr, hrepo, hdl, h1, h2, h3, phaseOrder]
      · simp [run_pipeline, runBody, phaseStep, publishPhase, handleFailure,
          hr, hrepo, hdl, h1, h2, h3]
    · by_cases hval : (missingRequiredTags nb).isEmpty = true
      · -- validation passes
        have hvalid : validate_required_tags nb = Except.ok () := by
          simp [validate_required_tags, hval]
        obtain ⟨cfg, hcfg⟩ := extract_config_isOk_of_no_missing hval
        rcases hexec : env.execute with e | logs
        · -- papermill fails
          refine ⟨?_, ?_, ?_, ?_⟩
          · simp [run_pipeline, runBody, validateStage, executeStage, phaseStep, publishPhase,
              handleFailure, Except.isOk, Except.toBool, hr, hrepo, hdl, hvalid, hcfg, hexec, h1, h2, h3]
          · simp [run_pipeline, runBody, validateStage, executeStage, phaseStep, publishPhase,
              handleFailure, somePhaseFails, hr, hrepo, hdl, hval, hvalid, hcfg, hexec,
              h1, h2, h3]
          · intro _
            refine ⟨?_, ?_, ?_, ⟨3, ?_⟩⟩ <;>
              simp [run_pipeline, runBody, validateStage, executeStage, phaseStep,
                publishPhase, handleFailure, hr, hrepo, hdl, hvalid, hcfg, hexec,
                h1, h2, h3, phaseOrder]
          · simp [run_pipeline, runBody, validateStage, executeStage, phaseStep, publishPhase,
              handleFailure, hr, hrepo, hdl, hvalid, hcfg, hexec, h1, h2, h3]
        · rcases hreg : env.register with e | mr
          · -- MLflow registration fails
            refine ⟨?_, ?_, ?_, ?_⟩
            · simp [run_pipeline, runBody, validateStage, executeStage, registerStage,
                phaseStep, publishPhase, handleFailure, Except.isOk, Except.toBool, hr, hrepo, hdl, hvalid,
                hcfg, hexec, hreg, h1, h2, h3]
            · simp [run_pipeline, runBody, validateStage, executeStage, registerStage,
                phaseStep, publishPhase, handleFailure, somePhaseFails, hr, hrepo, hdl,
                hval, hvalid, hcfg, hexec, hreg, h1, h2, h3]
            · intro _
              refine ⟨?_, ?_, ?_, ⟨4, ?_⟩⟩ <;>
                simp [run_pipeline, runBody, validateStage, executeStage, registerStage,
                  phaseStep, publishPhase, handleFailure, hr, hrepo, hdl, hvalid, hcfg,
                  hexec, hreg, h1, h2, h3, phaseOrder]
            · simp [run_pipeline, runBody, validateStage, executeStage, registerStage,
                phaseStep, publishPhase, handleFailure, hr, hrepo, hdl, hvalid, hcfg,
                hexec, hreg, h1, h2, h3]
          · -- all phase bodies succeed: the run ends success
            have hnofail : somePhaseFails env = false := by
              simp [somePhaseFails, hrepo, hdl, hval, hexec, hreg]
            by_cases hcond : (s.auto_deploy_on_success = true ∧
                s.min_accuracy_threshold ≤ registeredAccuracy mr)
            · rcases hD : env.deployHttp with e | u
              · refine ⟨?_, ?_, fun hc => absurd hc (by simp [hnofail]), ?_⟩ <;>
                  simp [run_pipeline, runBody, validateStage, executeStage, registerStage,
                    deploySection, finishSuccess, phaseStep, publishPhase, Except.isOk, Except.toBool,
                    hr, hrepo, hdl, hvalid, hcfg, hexec, hreg, h1, h2, h3, if_pos hcond,
                    hD, hnofail]
              · cases u
                rcases hDb : env.deployDb with e | u2
                · refine ⟨?_, ?_, fun hc => absurd hc (by simp [hnofail]), ?_⟩ <;>
                    simp [run_pipeline, runBody, validateStage, executeStage, registerStage,
                      deploySection, finishSuccess, phaseStep, publishPhase, Except.isOk, Except.toBool,
                      hr, hrepo, hdl, hvalid, hcfg, hexec, hreg, h1, h2, h3, if_pos hcond,
                      hD, hDb, hnofail]
                · cases u2
                  refine ⟨?_, ?_, fun hc => absurd hc (by simp [hnofail]), ?_⟩ <;>
                    simp [run_pipeline, runBody, validateStage, executeStage, registerStage,
                      deploySection, finishSuccess, phaseStep, publishPhase, Except.isOk, Except.toBool,
                      hr, hrepo, hdl, hvalid, hcfg, hexec, hreg, h1, h2, h3, if_pos hcond,
                      hD, hDb, hnofail]
            · refine ⟨?_, ?_, fun hc => absurd hc (by simp [hnofail]), ?_⟩ <;>
                simp [run_pipeline, runBody, validateStage, executeStage, registerStage,
                  deploySection, finishSuccess, phaseStep, publishPhase, Except.isOk, Except.toBool,
                  hr, hrepo, hdl, hvalid, hcfg, hexec, hreg, h1, h2, h3, if_neg hcond,
                  hnofail]
      · -- validation fails
        have hvalerr : validate_required_tags nb =
            Except.error (validationErrorMsg (missingRequiredTags nb)) := by
          simp [validate_required_tags, hval]
        refine ⟨?_, ?_, ?_, ?_⟩
        · simp [run_pipeline, runBody, validateStage, phaseStep, publishPhase, handleFailure,
            Except.isOk, Except.toBool, hr, hrepo, hdl, hvalerr, h1, h2, h3]
        · simp [run_pipeline, runBody, validateStage, phaseStep, publishPhase, handleFailure,
            somePhaseFails, hr, hrepo, hdl, hval, hvalerr, h1, h2, h3]
        · intro _
          refine ⟨?_, ?_, ?_, ⟨2, ?_⟩⟩ <;>
            simp [run_pipeline, runBody, validateStage, phaseStep, publishPhase,
              handleFailure, hr, hrepo, hdl, hvalerr, h1, h2, h3, phaseOrder]
        · simp [run_pipeline, runBody, validateStage, phaseStep, publishPhase, handleFailure,
            hr, hrepo, hdl, hvalerr, h1, h2, h3]

/-- Healthy environment whose GitHub download fails. -/
def envDlFail : Env := { demoEnvOk with download := Except.error "404 not found" }

/-- Witness for C1 at a concrete run whose download phase raises. -/
theorem engine_failure_containment_witness :
    (run_pipeline demoSettings envDlFail "pid-1w" 1 initialWorld).1.isOk = true ∧
    ((run_pipeline demoSettings envDlFail "pid-1w" 1 initialWorld).2.db.status = "failed" ↔
      somePhaseFails envDlFail = true) ∧
    (somePhaseFails envDlFail = true →
      (run_pipeline demoSettings envDlFail "pid-1w" 1 initialWorld).2.db.finished_at.isSome
        = true ∧
      (run_pipeline demoSettings envDlFail "pid-1w" 1 initialWorld).2.db.phases.countP
        (fun e => e.status == "failed") = 1 ∧
      ((run_pipeline demoSettings envDlFail "pid-1w" 1
          initialWorld).2.db.phases.getLast?).map (fun e => e.status) = some "failed" ∧
      ∃ k, (((run_pipeline demoSettings envDlFail "pid-1w" 1 initialWorld).2.db.phases.filter
        (fun e => !(e.name == "error"))).map (fun e => e.name)).dedup = phaseOrder.take k) ∧
    ((run_pipeline demoSettings envDlFail "pid-1w" 1 initialWorld).2.db.status = "success" ↔
      ∀ e ∈ (run_pipeline demoSettings envDlFail "pid-1w" 1 initialWorld).2.db.phases,
        e.name ≠ "deploy" → e.status ≠ "failed") :=
  engine_failure_containment demoSettings envDlFail "pid-1w" 1 initialWorld rfl rfl rfl rfl

end Spec2Proof
